import Mathlib

/-!
Verification of the moana-to-usd core against its specification.

The development shallowly embeds the Python source of the repository:
  - `src/moana2usd/obj_parser/obj_parser.py` (geometry stream parser,
    material display color/opacity helpers),
  - `src/moana2usd/converters/asset_converter.py` (per-group mesh
    assembly, asset skipping),
  - `src/moana2usd/converters/element_converter.py` (sub-instance
    materialization cache, element processing).

Python runtime behaviour that the code relies on is modelled explicitly:
list indexing (`pyListGet`, with negative-index wrap-around and
`IndexError`), `int`/`float` parsing (`pyInt`, `pyFloat`, raising
`ValueError`), `str.split`/`str.replace`/`str.strip`, and dict update
semantics.  Floats are modelled as rationals; file contents stand in for
file handles (a geometry file is its list of lines, the destination
directory is the list of paths that exist in it).
-/

namespace MoanaToUSD

/-- Python exceptions that the embedded code can raise. -/
inductive PyErr where
  | indexError : PyErr
  | valueError : PyErr
deriving DecidableEq, Repr

/-! ### Computable string primitives

The embedding re-implements the Python string operations the source uses
(`strip`, `split`, `replace`, `startswith`) by structural recursion over
the character list of a `String`, so that every parse of a concrete
line reduces inside the kernel. -/

/-- Strip leading and trailing whitespace from a character list. -/
def trimChars (cs : List Char) : List Char :=
  ((cs.dropWhile Char.isWhitespace).reverse.dropWhile Char.isWhitespace).reverse

/-- Python `s.strip()`. -/
def pyStrip (s : String) : String :=
  String.mk (trimChars s.data)

/-- Accumulator loop for whitespace splitting. -/
def splitWsAux : List Char → List Char → List String
  | [], acc => if acc = [] then [] else [String.mk acc.reverse]
  | c :: rest, acc =>
    if Char.isWhitespace c then
      if acc = [] then splitWsAux rest []
      else String.mk acc.reverse :: splitWsAux rest []
    else splitWsAux rest (c :: acc)

/-- Python `s.split()` with no argument: split on runs of whitespace,
discarding empty pieces. -/
def pySplit (s : String) : List String :=
  splitWsAux s.data []

/-- Accumulator loop for single-character splitting. -/
def splitOnCharAux : List Char → Char → List Char → List String
  | [], _, acc => [String.mk acc.reverse]
  | c :: rest, sep, acc =>
    if c = sep then String.mk acc.reverse :: splitOnCharAux rest sep []
    else splitOnCharAux rest sep (c :: acc)

/-- Python `s.split(sep)` for a one-character separator: keeps empty
pieces; the empty string yields `[""]`. -/
def pySplitOnChar (s : String) (sep : Char) : List String :=
  splitOnCharAux s.data sep []

/-- Fuel-bounded loop for `str.replace`: replace non-overlapping
occurrences left to right.  The fuel (the string's length) is always
sufficient because every iteration consumes at least one character; the
empty pattern (which Python treats specially) never occurs in the
source and is a no-op here. -/
def pyReplaceAux : Nat → List Char → List Char → List Char → List Char
  | 0, s, _, _ => s
  | _ + 1, [], _, _ => []
  | fuel + 1, c :: rest, pat, repl =>
    if pat ≠ [] ∧ pat.isPrefixOf (c :: rest) then
      repl ++ pyReplaceAux fuel ((c :: rest).drop pat.length) pat repl
    else c :: pyReplaceAux fuel rest pat repl

/-- Python `s.replace(pat, repl)` (all occurrences). -/
def pyReplace (s pat repl : String) : String :=
  String.mk (pyReplaceAux s.data.length s.data pat.data repl.data)

/-- Python `s.startswith(pre)`. -/
def pyStartsWith (s pre : String) : Bool :=
  pre.data.isPrefixOf s.data

/-- Join a list of strings with a one-character separator (models
`sep.join(parts)` as used by `os.path.splitext` reconstruction). -/
def joinWithChar (sep : Char) : List String → String
  | [] => ""
  | [x] => x
  | x :: rest => x ++ String.mk [sep] ++ joinWithChar sep rest

/-- Python list indexing `l[i]`: a negative index counts from the end of
the list; an index out of `[-len, len)` raises `IndexError`. -/
def pyListGet (l : List α) (i : Int) : Except PyErr α :=
  let n : Int := l.length
  let j : Int := if i < 0 then i + n else i
  if h : 0 ≤ j ∧ j < n then
    Except.ok (l.get ⟨j.toNat, by omega⟩)
  else
    Except.error PyErr.indexError

/-- Numeric value of a list of decimal digit characters. -/
def digitsToNat (cs : List Char) : Nat :=
  cs.foldl (fun a c => a * 10 + (c.toNat - ('0').toNat)) 0

/-- Python `int(s)`: optional surrounding whitespace, optional sign,
then decimal digits; anything else raises `ValueError` (modelled as
`none`). -/
def pyInt (s : String) : Option Int :=
  let t := pyStrip s
  match t.data with
  | [] => none
  | c :: rest =>
    let p : Bool × List Char :=
      if c = '-' then (true, rest)
      else if c = '+' then (false, rest)
      else (false, c :: rest)
    if p.2 ≠ [] ∧ p.2.all Char.isDigit then
      let v : Int := (digitsToNat p.2 : Int)
      some (if p.1 then -v else v)
    else none

/-- Python `float(s)` restricted to plain decimal literals: optional
sign, digits, optional fractional part.  (The fixed-format exponents,
`inf` and `nan` are never produced by the dataset and are not
modelled.) -/
def pyFloat (s : String) : Option ℚ :=
  let t := pyStrip s
  let p : Bool × List Char :=
    match t.data with
    | '-' :: rest => (true, rest)
    | '+' :: rest => (false, rest)
    | cs => (false, cs)
  let body := String.mk p.2
  match pySplitOnChar body '.' with
  | [a] =>
    if a.data ≠ [] ∧ a.data.all Char.isDigit then
      let v : ℚ := (digitsToNat a.data : ℚ)
      some (if p.1 then -v else v)
    else none
  | [a, b] =>
    if (a.data ≠ [] ∨ b.data ≠ []) ∧ a.data.all Char.isDigit ∧ b.data.all Char.isDigit then
      let v : ℚ := (digitsToNat a.data : ℚ) + (digitsToNat b.data : ℚ) / ((10 : ℚ) ^ b.data.length)
      some (if p.1 then -v else v)
    else none
  | _ => none

/-- `pyInt` lifted into the `Except` monad (`ValueError` on failure). -/
def pyIntE (s : String) : Except PyErr Int :=
  match pyInt s with
  | some v => Except.ok v
  | none => Except.error PyErr.valueError

/-- `pyFloat` lifted into the `Except` monad (`ValueError` on failure). -/
def pyFloatE (s : String) : Except PyErr ℚ :=
  match pyFloat s with
  | some v => Except.ok v
  | none => Except.error PyErr.valueError

/-- Python dict update `m.update(k, v)` on an insertion-ordered
association list: overwrite in place if the key exists, else append. -/
def dictUpdate (m : List (String × String)) (k v : String) : List (String × String) :=
  if m.any (fun p => p.fst = k) then
    m.map (fun p => if p.fst = k then (k, v) else p)
  else
    m ++ [(k, v)]

/-! ## Data model of `obj_parser.py` -/

/-- 3 rational coordinates standing in for a float triple. -/
abbrev Vec3 := ℚ × ℚ × ℚ

/-- `Point` in the OBJ file format: indices into the global
vertex/uv/normal tables, `-1` encoding an absent channel. -/
structure Point where
  vertIndex : Int
  uvIndex : Int
  normalIndex : Int
deriving DecidableEq, Repr

/-- `Face`: a half-open range into the global point table. -/
structure Face where
  pointsBegin : Nat
  pointsEnd : Nat
deriving DecidableEq, Repr

/-- `Face.size`: number of points in the face (Python int subtraction). -/
def Face.size (f : Face) : Int :=
  (f.pointsEnd : Int) - (f.pointsBegin : Int)

/-- `Group`: a named ordered list of faces. -/
structure Group where
  name : String
  faces : List Face
deriving DecidableEq, Repr

/-- `OBJStream`: the parsed in-memory representation of one OBJ file. -/
structure OBJStream where
  verts : List Vec3
  uvs : List (ℚ × ℚ)
  normals : List Vec3
  points : List Point
  groups : List Group
  materialMap : List (String × String)
deriving DecidableEq, Repr

/-- `OBJStream.__init__`: empty tables; the material map starts with the
`default -> default` binding. -/
def OBJStream.empty : OBJStream :=
  { verts := [], uvs := [], normals := [], points := [], groups := []
    materialMap := [("default", "default")] }

/-- `OBJStream.AddVert`. -/
def OBJStream.AddVert (s : OBJStream) (vertex : Vec3) : OBJStream :=
  { s with verts := s.verts ++ [vertex] }

/-- `OBJStream.AddUV`. -/
def OBJStream.AddUV (s : OBJStream) (uv : ℚ × ℚ) : OBJStream :=
  { s with uvs := s.uvs ++ [uv] }

/-- `OBJStream.AddNormal`. -/
def OBJStream.AddNormal (s : OBJStream) (normal : Vec3) : OBJStream :=
  { s with normals := s.normals ++ [normal] }

/-- `OBJStream.AddPoint`. -/
def OBJStream.AddPoint (s : OBJStream) (point : Point) : OBJStream :=
  { s with points := s.points ++ [point] }

/-- `OBJStream.FindGroup`: first group with the given name, if any. -/
def OBJStream.FindGroup (s : OBJStream) (groupName : String) : Option Group :=
  s.groups.find? (fun g => g.name = groupName)

/-- `OBJStream.AddGroup`: append a new group only when no group of that
name exists yet (the Boolean result of the Python method is unused by
its callers and is dropped). -/
def OBJStream.AddGroup (s : OBJStream) (groupName : String) : OBJStream :=
  match s.FindGroup groupName with
  | none => { s with groups := s.groups ++ [Group.mk groupName []] }
  | some _ => s

/-- `OBJStream.AddFace`: create the default group when no group exists,
then append the face to the *last* group of the list. -/
def OBJStream.AddFace (s : OBJStream) (face : Face) : OBJStream :=
  let s := if s.groups.isEmpty then s.AddGroup "default" else s
  match s.groups.getLast? with
  | some g =>
      { s with groups := s.groups.dropLast ++ [{ g with faces := g.faces ++ [face] }] }
  | none => s

/-- `OBJStream.AddMaterial`: dict update of the group-to-material map. -/
def OBJStream.AddMaterial (s : OBJStream) (groupName materialName : String) : OBJStream :=
  { s with materialMap := dictUpdate s.materialMap groupName materialName }

/-- `OBJStream.GetMaterialForGroup`: dict `get` with `default` fallback. -/
def OBJStream.GetMaterialForGroup (s : OBJStream) (groupName : String) : String :=
  match s.materialMap.find? (fun p => p.fst = groupName) with
  | some p => p.snd
  | none => "default"

/-- `OBJStream.GetCurrentGroup`: `self._groups[-1].name`, an
`IndexError` when the group list is empty. -/
def OBJStream.GetCurrentGroup (s : OBJStream) : Except PyErr String :=
  match s.groups.getLast? with
  | some g => Except.ok g.name
  | none => Except.error PyErr.indexError

/-! ## The line-by-line parser `getOBJStreamForFile` -/

/-- One `ri` reference of an `f` line: `vertIdx[/uvIdx[/normalIdx]]`,
each sub-field converted with `int(...) - 1` when non-empty, `-1`
otherwise. -/
def parsePointToken (i : String) : Except PyErr Point := do
  let segments := pySplitOnChar i '/'
  let vertIndex ←
    if segments.getD 0 "" ≠ "" then do
      let k ← pyIntE (segments.getD 0 "")
      pure (k - 1)
    else pure (-1 : Int)
  let uvIndex ←
    if segments.length > 1 ∧ segments.getD 1 "" ≠ "" then do
      let k ← pyIntE (segments.getD 1 "")
      pure (k - 1)
    else pure (-1 : Int)
  let normalIndex ←
    if segments.length > 2 ∧ segments.getD 2 "" ≠ "" then do
      let k ← pyIntE (segments.getD 2 "")
      pure (k - 1)
    else pure (-1 : Int)
  pure (Point.mk vertIndex uvIndex normalIndex)

/-- The inner `for i in pointData` loop of the `f` branch. -/
def addPointTokens (s : OBJStream) : List String → Except PyErr OBJStream
  | [] => Except.ok s
  | i :: rest =>
    match parsePointToken i with
    | Except.error e => Except.error e
    | Except.ok p => addPointTokens (s.AddPoint p) rest

/-- One iteration of the parser's `for line in f` loop. -/
def processLine (stream : OBJStream) (rawLine : String) : Except PyErr OBJStream :=
  let line := pyStrip rawLine
  if line = "" then Except.ok stream
  else
    match line.data with
    | [] => Except.ok stream
    | c :: rest =>
      if c = 'v' then
        match rest with
        | [] => Except.error PyErr.indexError
        | c1 :: _ =>
          if c1 = ' ' then do
            let vertexCoord := pySplit (pyStrip (pyReplace line "v " ""))
            let x ← pyFloatE (← pyListGet vertexCoord 0)
            let y ← pyFloatE (← pyListGet vertexCoord 1)
            let z ← pyFloatE (← pyListGet vertexCoord 2)
            pure (stream.AddVert (x, y, z))
          else if c1 = 'n' then do
            let normalCoord := pySplit (pyStrip (pyReplace line "vn " ""))
            let x ← pyFloatE (← pyListGet normalCoord 0)
            let y ← pyFloatE (← pyListGet normalCoord 1)
            let z ← pyFloatE (← pyListGet normalCoord 2)
            pure (stream.AddNormal (x, y, z))
          else if c1 = 't' then do
            let uvCoord := pySplit (pyStrip (pyReplace line "vt " ""))
            let u ← pyFloatE (← pyListGet uvCoord 0)
            let v ← pyFloatE (← pyListGet uvCoord 1)
            pure (stream.AddUV (u, v))
          else Except.ok stream
      else if c = 'f' then do
        let pointsBegin := stream.points.length
        let pointData := pySplit (pyStrip (pyReplace line "f " ""))
        let stream2 ← addPointTokens stream pointData
        let pointsEnd := stream2.points.length
        pure (stream2.AddFace (Face.mk pointsBegin pointsEnd))
      else if c = 'g' then
        let groupName := pyReplace line "g " ""
        let groupName := if groupName = "g" then "default" else groupName
        Except.ok (stream.AddGroup groupName)
      else if pyStartsWith line "usemtl " then
        let materialName := pyStrip (pyReplace line "usemtl " "")
        if materialName ≠ "" then do
          let currentGroup ← stream.GetCurrentGroup
          pure (stream.AddMaterial currentGroup materialName)
        else Except.ok stream
      else Except.ok stream

/-- The parser's `for line in f` loop. -/
def parseLines (s : OBJStream) : List String → Except PyErr OBJStream
  | [] => Except.ok s
  | line :: rest =>
    match processLine s line with
    | Except.error e => Except.error e
    | Except.ok s2 => parseLines s2 rest

/-- `getOBJStreamForFile`, with the opened file represented by its list
of lines. -/
def getOBJStreamForFile (lines : List String) : Except PyErr OBJStream :=
  parseLines OBJStream.empty lines

/-! ## Per-group mesh assembly (`AssetConverter._convertOBJToUSD`)

The group loop of `_convertOBJToUSD` builds, for one group:
`groupVertexBuffer` (the compacted vertex buffer, exported as the mesh's
`points`), `objectToGroupVertexBufferMap` (global vertex index to
compacted index), `groupVertexIndices` (exported as the mesh's
`faceVertexIndices`), `faceVertexCounts` (exported as is), and
`faceVertexIndices` (the *global* indices; the Python variable of that
name, written but not exported).  `bufferTrace` additionally records the
insertion order of the map's keys; it is a specification-only mirror of
`objectToGroupVertexBufferMap` (the dict's keys in insertion order) and
is written to exactly when the dict is. -/

structure CompactState where
  groupVertexBuffer : List Vec3
  bufferTrace : List Int
  objectToGroupVertexBufferMap : List (Int × Nat)
  groupVertexIndices : List Nat
  faceVertexIndices : List Int
  faceVertexCounts : List Int
deriving DecidableEq, Repr

/-- All-empty initial state of the per-group loop. -/
def CompactState.init : CompactState :=
  { groupVertexBuffer := [], bufferTrace := [], objectToGroupVertexBufferMap := []
    groupVertexIndices := [], faceVertexIndices := [], faceVertexCounts := [] }

/-- Python dict `get` on the insertion-ordered association list. -/
def dictGet (m : List (Int × Nat)) (k : Int) : Option Nat :=
  (m.find? (fun p => p.fst = k)).map (fun p => p.snd)

/-- Body of the `for pointIndex in xrange(face.pointsBegin,
face.pointsEnd)` loop: fetch the point, record its global vertex index,
and either reuse the compacted slot or allocate a new one by Python
indexing into the global vertex table. -/
def processPoint (verts : List Vec3) (points : List Point) (st : CompactState)
    (pointIndex : Nat) : Except PyErr CompactState :=
  match pyListGet points (pointIndex : Int) with
  | Except.error e => Except.error e
  | Except.ok objPoint =>
    let vertexIndex := objPoint.vertIndex
    let st1 := { st with faceVertexIndices := st.faceVertexIndices ++ [vertexIndex] }
    match dictGet st1.objectToGroupVertexBufferMap vertexIndex with
    | some smallBufferIndex =>
        Except.ok { st1 with groupVertexIndices := st1.groupVertexIndices ++ [smallBufferIndex] }
    | none =>
      let smallBufferIndex := st1.groupVertexBuffer.length
      match pyListGet verts vertexIndex with
      | Except.error e => Except.error e
      | Except.ok v =>
          Except.ok { st1 with
            objectToGroupVertexBufferMap :=
              st1.objectToGroupVertexBufferMap ++ [(vertexIndex, smallBufferIndex)]
            groupVertexBuffer := st1.groupVertexBuffer ++ [v]
            bufferTrace := st1.bufferTrace ++ [vertexIndex]
            groupVertexIndices := st1.groupVertexIndices ++ [smallBufferIndex] }

/-- The `for pointIndex in xrange(...)` loop itself. -/
def processPoints (verts : List Vec3) (points : List Point) :
    CompactState → List Nat → Except PyErr CompactState
  | st, [] => Except.ok st
  | st, pi :: rest =>
    match processPoint verts points st pi with
    | Except.error e => Except.error e
    | Except.ok st2 => processPoints verts points st2 rest

/-- One iteration of `for face in group.faces`: append the face's point
count, then walk its point range. -/
def processFace (verts : List Vec3) (points : List Point) (st : CompactState)
    (face : Face) : Except PyErr CompactState :=
  let st := { st with faceVertexCounts := st.faceVertexCounts ++ [face.size] }
  processPoints verts points st (List.range' face.pointsBegin (face.pointsEnd - face.pointsBegin))

/-- The `for face in group.faces` loop. -/
def processFaces (verts : List Vec3) (points : List Point) :
    CompactState → List Face → Except PyErr CompactState
  | st, [] => Except.ok st
  | st, face :: rest =>
    match processFace verts points st face with
    | Except.error e => Except.error e
    | Except.ok st2 => processFaces verts points st2 rest

/-- The whole per-group compaction of `_convertOBJToUSD` for one group
(the `if not group.faces: continue` skip is handled by the caller). -/
def convertGroup (verts : List Vec3) (points : List Point) (g : Group) :
    Except PyErr CompactState :=
  processFaces verts points CompactState.init g.faces

/-- Default point used by the specification-side walk (never reachable
on successful runs: every point index of a parsed face is in range). -/
def dfltPoint : Point := Point.mk (-1) (-1) (-1)

/-- Specification walk over one face: the global vertex indices its
point range references, in point order. -/
def faceRefs (points : List Point) (f : Face) : List Int :=
  (List.range' f.pointsBegin (f.pointsEnd - f.pointsBegin)).map
    (fun i => (points.getD i dfltPoint).vertIndex)

/-- Specification walk: the global vertex indices referenced by a
group's faces, in declaration order over faces and point order within
each face. -/
def refTrace (points : List Point) (g : Group) : List Int :=
  (g.faces.map (faceRefs points)).flatten

/-- One step of first-encounter deduplication. -/
def feStep (acc : List Int) (x : Int) : List Int :=
  if x ∈ acc then acc else acc ++ [x]

/-- First-encounter deduplication of a list: each distinct element once,
in order of first occurrence. -/
def firstEncounters (l : List Int) : List Int :=
  l.foldl feStep []

/-! ## Material display color / opacity (`obj_parser.py`) -/

/-- One entry of a `materials.json` attribute bag, restricted to the
fields the display-color/opacity helpers look at.  Absent fields are
`none`; a bag that is entirely absent from the file is modelled by a
failed lookup.  (An empty Python dict, which is falsy, is modelled as a
failed lookup as well.) -/
structure MaterialData where
  baseColor : Option (List ℚ)
  opacity : Option ℚ
deriving DecidableEq, Repr

/-- `getDisplayColorForMaterial`, from the point where the
`materials.json` content has been loaded: return `baseColor` unless it
is absent or one of the two reserved sentinel colors. -/
def getDisplayColorForMaterial (materialJSONData : List (String × MaterialData))
    (materialName : String) : Option (List ℚ) :=
  match (materialJSONData.find? (fun p => p.fst = materialName)).map (fun p => p.snd) with
  | some materialData =>
    match materialData.baseColor with
    | some baseColor =>
      if baseColor ≠ [1, 0, 0] ∧ baseColor ≠ [1, 0, 1] then some baseColor else none
    | none => none
  | none => none

/-- `getDisplayOpacityForMaterial`, from the point where the
`materials.json` content has been loaded: return `baseColor[3]` when the
base color array has at least 4 entries, and nothing otherwise (the
`opacity` field of the bag is not consulted by the source). -/
def getDisplayOpacityForMaterial (materialJSONData : List (String × MaterialData))
    (materialName : String) : Option ℚ :=
  match (materialJSONData.find? (fun p => p.fst = materialName)).map (fun p => p.snd) with
  | some materialData =>
    match materialData.baseColor with
    | some baseColor =>
      if baseColor.length ≥ 4 then some (baseColor.getD 3 0) else none
    | none => none
  | none => none

/-- The recording site in `_convertOBJToUSD`: `alpha = getDisplayOpacity
ForMaterial(...)` followed by `if alpha:` — a `None` result or a zero
opacity is not recorded (Python float truthiness). -/
def displayOpacityRecorded (materialJSONData : List (String × MaterialData))
    (materialName : String) : Option ℚ :=
  match getDisplayOpacityForMaterial materialJSONData materialName with
  | some alpha => if alpha ≠ 0 then some alpha else none
  | none => none

/-! ## Sub-instance materialization (`ElementConverter._createInstance`)

The destination file system is modelled as the list of paths that exist;
`_parseInstanceJSONFile` is modelled as the event `parse the JSON file
and export the batch artifact at the stage path`, recorded in
`materializedLog` and in the file system (the `layer.Export` call). -/

/-- `instancedPrimitiveJsonFiles` entry: its `type` tag and `jsonFile`
path. -/
structure SubInstanceData where
  type : String
  jsonFile : String
deriving DecidableEq, Repr

/-- `ElementConverter._subInstanceIsTooSmallToInstance`. -/
def subInstanceIsTooSmallToInstance (subInstanceName : String) : Bool :=
  subInstanceName ∈ (["xgGroundCover", "xgPalmDebris", "xgFlutes", "xgDebris"] : List String)

/-- `_getFileBasename`: `os.path.basename(filename).rsplit('.')[0]`. -/
def getFileBasename (filename : String) : String :=
  (pySplitOnChar ((pySplitOnChar filename '/').getLastD filename) '.').headD ""

/-- `_getAssetSubInstanceStageFilePath`: the deterministic stage path of
a sub-instance batch artifact, under the primitives directory. -/
def getAssetSubInstanceStageFilePath (primitivesDirectory usdFileExtension jsonFilename : String) :
    String :=
  primitivesDirectory ++ "/_instances_" ++ getFileBasename jsonFilename ++ usdFileExtension

/-- State threaded through sub-instance processing for one run. -/
structure InstancingState where
  fs : List String
  materializedLog : List String
  refs : List String
deriving DecidableEq, Repr

/-- Body of the `for subInstanceName, subInstanceData in
subInstances.items()` loop of `_createInstance`: eligible archive-typed
sub-instances are materialized at their stage path unless that path
already exists, then referenced in every case. -/
def processSubInstance (primitivesDirectory usdFileExtension sourceDirectoryPath : String)
    (st : InstancingState) (sub : String × SubInstanceData) : InstancingState :=
  if sub.snd.type = "archive" ∧ ¬ subInstanceIsTooSmallToInstance sub.fst then
    let jsonFilename := sourceDirectoryPath ++ "/" ++ sub.snd.jsonFile
    let subInstanceStageFilePath :=
      getAssetSubInstanceStageFilePath primitivesDirectory usdFileExtension jsonFilename
    let st :=
      if subInstanceStageFilePath ∈ st.fs then st
      else
        { st with
          materializedLog := st.materializedLog ++ [subInstanceStageFilePath]
          fs := st.fs ++ [subInstanceStageFilePath] }
    { st with refs := st.refs ++ [subInstanceStageFilePath] }
  else st

/-- All sub-instance encounters of a run, in processing order (across
`_createInstance` calls for all elements and instanced copies). -/
def processSubInstances (primitivesDirectory usdFileExtension sourceDirectoryPath : String) :
    InstancingState → List (String × SubInstanceData) → InstancingState
  | st, [] => st
  | st, sub :: rest =>
    processSubInstances primitivesDirectory usdFileExtension sourceDirectoryPath
      (processSubInstance primitivesDirectory usdFileExtension sourceDirectoryPath st sub) rest

/-- An encounter targets `path` when it is eligible (archive-typed, not
in the too-small exclusion list) and its derived stage path is `path`. -/
def hitsPath (primitivesDirectory usdFileExtension sourceDirectoryPath path : String)
    (sub : String × SubInstanceData) : Bool :=
  decide (sub.snd.type = "archive") && !(subInstanceIsTooSmallToInstance sub.fst) &&
    decide (getAssetSubInstanceStageFilePath primitivesDirectory usdFileExtension
      (sourceDirectoryPath ++ "/" ++ sub.snd.jsonFile) = path)

/-! ## Unit-of-work skipping (`_createAssets`, `_processElementData`) -/

/-- `os.path.splitext(...)[0]` of a basename: drop the last
dot-extension. -/
def splitextBase (s : String) : String :=
  let parts := pySplitOnChar s '.'
  if parts.length ≤ 1 then s else joinWithChar '.' parts.dropLast

/-- `_getAssetsStagePath`: the deterministic stage path of an asset. -/
def getAssetsStagePath (primitivesDirectory usdFileExtension assetOBJPath : String) : String :=
  primitivesDirectory ++ "/" ++
    splitextBase ((pySplitOnChar assetOBJPath '/').getLastD assetOBJPath) ++ usdFileExtension

/-- The existence pre-filter of `_createAssets`: the assets actually
translated are exactly those whose stage path is not already present. -/
def assetsToTranslate (primitivesDirectory usdFileExtension : String) (fs : List String)
    (assetOBJFiles : List String) : List String :=
  assetOBJFiles.filter (fun assetOBJFile =>
    ¬ (getAssetsStagePath primitivesDirectory usdFileExtension assetOBJFile) ∈ fs)

/-- `getElementStageFilePath`: the deterministic stage path of an
element. -/
def getElementStageFilePath (primitivesDirectory usdFileExtension elementName : String) : String :=
  primitivesDirectory ++ "/_element_" ++ elementName ++ usdFileExtension

/-- One element unit of `_createElements`, as the pair (element JSON
file path, the `name` field of its decoded content). -/
structure ElementJob where
  jsonFile : String
  elementName : String
deriving DecidableEq, Repr

/-- The element loop of `_createElements` / `_handleElementFile` /
`_processElementData`: every element's JSON file is opened and parsed
and its stage recreated and saved, with no existence check against the
destination (`fs` is never consulted).  Returns the parse log and the
write log of the run. -/
def createElements (primitivesDirectory usdFileExtension : String) (_fs : List String)
    (jobs : List ElementJob) : List String × List String :=
  (jobs.map (fun job => job.jsonFile),
   jobs.map (fun job =>
     getElementStageFilePath primitivesDirectory usdFileExtension job.elementName))

/-! ## Helper lemmas -/

theorem pyListGet_error {l : List α} {i : Int} {e : PyErr}
    (h : pyListGet l i = Except.error e) : e = PyErr.indexError := by
  simp only [pyListGet] at h
  split at h <;> split at h <;> simp_all

theorem pyListGet_ok_bounds {l : List α} {i : Int} {a : α}
    (h : pyListGet l i = Except.ok a) : -(l.length : Int) ≤ i ∧ i < l.length := by
  simp only [pyListGet] at h
  by_cases hi : i < 0
  · simp only [if_pos hi] at h
    split at h
    next hc => omega
    · exact absurd h (by simp)
  · simp only [if_neg hi] at h
    split at h
    next hc => omega
    · exact absurd h (by simp)

theorem pyListGet_nat_ok {l : List α} {i : Nat} {a : α} (d : α)
    (h : pyListGet l (i : Int) = Except.ok a) : i < l.length ∧ a = l.getD i d := by
  simp only [pyListGet] at h
  have hi : ¬ ((i : Int) < 0) := by omega
  simp only [if_neg hi] at h
  split at h
  next hc =>
    have hlen : i < l.length := by omega
    refine ⟨hlen, ?_⟩
    injection h with hinj
    rw [List.getD_eq_getElem l d hlen, ← hinj]
    simp
  · exact absurd h (by simp)

theorem find?_append_of_none {p : α → Bool} {l₁ l₂ : List α}
    (h : l₁.find? p = none) : (l₁ ++ l₂).find? p = l₂.find? p := by
  rw [List.find?_append, h, Option.none_or]

theorem dictGet_isSome_iff {m : List (Int × Nat)} {v : Int} :
    (dictGet m v).isSome ↔ ∃ p ∈ m, p.fst = v := by
  unfold dictGet
  cases hf : m.find? (fun p => p.fst = v) with
  | none =>
    simp only [Option.map_none', Option.isSome_none, Bool.false_eq_true, false_iff]
    rintro ⟨p, hp, he⟩
    have := List.find?_eq_none.mp hf p hp
    simp [he] at this
  | some q =>
    simp only [Option.map_some', Option.isSome_some, true_iff]
    exact ⟨q, List.mem_of_find?_eq_some hf, by simpa using List.find?_some hf⟩

theorem dictGet_some_mem {m : List (Int × Nat)} {v : Int} {k : Nat}
    (h : dictGet m v = some k) : ∃ p ∈ m, p.snd = k := by
  unfold dictGet at h
  cases hf : m.find? (fun p => p.fst = v) with
  | none => rw [hf] at h; exact absurd h (by simp)
  | some q =>
    rw [hf, Option.map_some'] at h
    exact ⟨q, List.mem_of_find?_eq_some hf, (Option.some.injEq _ _).mp h⟩

theorem dictGet_append_single {m : List (Int × Nat)} {v u : Int} {n : Nat} :
    dictGet (m ++ [(v, n)]) u = if (dictGet m u).isSome then dictGet m u
      else (if u = v then some n else none) := by
  unfold dictGet
  cases hf : m.find? (fun p => p.fst = u) with
  | some q =>
    rw [List.find?_append, hf]
    simp
  | none =>
    rw [List.find?_append, hf, Option.none_or]
    simp only [Option.map_none', Option.isSome_none, Bool.false_eq_true, if_false]
    by_cases hv : u = v
    · subst hv
      simp [List.find?]
    · have hv2 : ¬ (((v, n) : Int × Nat).fst = u) := fun h2 => hv h2.symm
      simp [List.find?, hv2, hv]

theorem count_concat [DecidableEq α] (l : List α) (a b : α) :
    (l ++ [a]).count b = l.count b + (if a = b then 1 else 0) := by
  rw [List.count_append]
  by_cases h : a = b <;> simp [h, List.count_singleton]

theorem mem_foldl_feStep (l : List Int) (acc : List Int) (v : Int) :
    v ∈ l.foldl feStep acc ↔ v ∈ acc ∨ v ∈ l := by
  induction l generalizing acc with
  | nil => simp
  | cons x xs ih =>
    rw [List.foldl_cons, ih]
    unfold feStep
    by_cases hx : x ∈ acc
    · simp only [if_pos hx, List.mem_cons]
      constructor
      · rintro (h | h)
        · exact Or.inl h
        · exact Or.inr (Or.inr h)
      · rintro (h | h | h)
        · exact Or.inl h
        · exact Or.inl (h ▸ hx)
        · exact Or.inr h
    · simp only [if_neg hx, List.mem_append, List.mem_singleton, List.mem_cons]
      tauto

/-! ## The compaction invariant (`_convertOBJToUSD` group loop) -/

/-- Invariant maintained by the per-group compaction state:
the insertion-ordered dict keys are exactly the `bufferTrace`, dict
values index into the compacted buffer, the compacted buffer and trace
run in parallel, recorded compacted indices are in range, the trace has
no duplicates, and each compacted vertex is the Python lookup of its
trace index in the global vertex table. -/
structure CompactInv (verts : List Vec3) (st : CompactState) : Prop where
  mem_iff : ∀ v : Int, (dictGet st.objectToGroupVertexBufferMap v).isSome ↔ v ∈ st.bufferTrace
  val_lt : ∀ p ∈ st.objectToGroupVertexBufferMap, p.snd < st.groupVertexBuffer.length
  len_eq : st.groupVertexBuffer.length = st.bufferTrace.length
  gvi_lt : ∀ i ∈ st.groupVertexIndices, i < st.groupVertexBuffer.length
  nodup : st.bufferTrace.Nodup
  buffer_trace : ∀ p ∈ st.bufferTrace.zip st.groupVertexBuffer,
    pyListGet verts p.fst = Except.ok p.snd

theorem compactInv_init (verts : List Vec3) : CompactInv verts CompactState.init := by
  constructor <;> simp [CompactState.init, dictGet]

theorem processPoint_ok_char {verts : List Vec3} {points : List Point} {st : CompactState}
    {pi : Nat} {st' : CompactState}
    (h : processPoint verts points st pi = Except.ok st') (hinv : CompactInv verts st) :
    CompactInv verts st' ∧
    st'.bufferTrace = feStep st.bufferTrace ((points.getD pi dfltPoint).vertIndex) ∧
    st'.faceVertexIndices = st.faceVertexIndices ++ [(points.getD pi dfltPoint).vertIndex] ∧
    st'.groupVertexIndices.length = st.groupVertexIndices.length + 1 ∧
    st'.faceVertexCounts = st.faceVertexCounts ∧
    st.groupVertexBuffer.length ≤ st'.groupVertexBuffer.length := by
  unfold processPoint at h
  split at h
  · exact absurd h (by simp)
  next objPoint heq =>
    obtain ⟨-, hgetD⟩ := pyListGet_nat_ok dfltPoint heq
    dsimp only at h
    split at h
    next smallBufferIndex hm =>
      injection h with h
      subst h
      have hvmem : objPoint.vertIndex ∈ st.bufferTrace := by
        rw [← hinv.mem_iff objPoint.vertIndex, hm]; rfl
      have hklt : smallBufferIndex < st.groupVertexBuffer.length := by
        obtain ⟨p, hp, hpk⟩ := dictGet_some_mem hm
        exact hpk ▸ hinv.val_lt p hp
      refine ⟨?_, ?_, ?_, ?_, ?_, ?_⟩
      · constructor
        · exact hinv.mem_iff
        · exact hinv.val_lt
        · exact hinv.len_eq
        · intro i hi
          rcases List.mem_append.mp hi with hi | hi
          · exact hinv.gvi_lt i hi
          · rw [List.mem_singleton.mp hi]; exact hklt
        · exact hinv.nodup
        · exact hinv.buffer_trace
      · rw [← hgetD]; simp [feStep, hvmem]
      · rw [← hgetD]
      · simp
      · rfl
      · exact le_refl _
    next hm =>
      split at h
      · exact absurd h (by simp)
      next w hw =>
        injection h with h
        subst h
        have hvnot : objPoint.vertIndex ∉ st.bufferTrace := by
          rw [← hinv.mem_iff objPoint.vertIndex, hm]; simp
        refine ⟨?_, ?_, ?_, ?_, ?_, ?_⟩
        · constructor
          · intro u
            rw [dictGet_append_single]
            by_cases hu : (dictGet st.objectToGroupVertexBufferMap u).isSome
            · rw [if_pos hu]
              simp only [hu, true_iff]
              exact List.mem_append_left _ ((hinv.mem_iff u).mp hu)
            · rw [if_neg hu]
              by_cases huv : u = objPoint.vertIndex
              · subst huv
                simp
              · simp only [if_neg huv, Option.isSome_none, Bool.false_eq_true, false_iff]
                intro hmem
                rcases List.mem_append.mp hmem with hmem | hmem
                · exact hu ((hinv.mem_iff u).mpr hmem)
                · exact huv (List.mem_singleton.mp hmem)
          · intro p hp
            rcases List.mem_append.mp hp with hp | hp
            · have := hinv.val_lt p hp
              simp only [List.length_append, List.length_singleton]
              omega
            · rw [List.mem_singleton.mp hp]
              simp
          · simp [hinv.len_eq]
          · intro i hi
            simp only [List.length_append, List.length_singleton]
            rcases List.mem_append.mp hi with hi | hi
            · have := hinv.gvi_lt i hi
              omega
            · rw [List.mem_singleton.mp hi]
              omega
          · rw [List.nodup_append]
            exact ⟨hinv.nodup, List.nodup_singleton objPoint.vertIndex, by
              intro u hu hu2
              rw [List.mem_singleton.mp hu2] at hu
              exact hvnot hu⟩
          · intro p hp
            rw [List.zip_append hinv.len_eq.symm] at hp
            rcases List.mem_append.mp hp with hp | hp
            · exact hinv.buffer_trace p hp
            · have hpv : p = (objPoint.vertIndex, w) := by simpa using hp
              rw [hpv]
              exact hw
        · rw [← hgetD]; simp [feStep, hvnot]
        · rw [← hgetD]
        · simp
        · rfl
        · simp

theorem processPoints_ok_char {verts : List Vec3} {points : List Point} (L : List Nat)
    {st st' : CompactState}
    (h : processPoints verts points st L = Except.ok st') (hinv : CompactInv verts st) :
    CompactInv verts st' ∧
    st'.bufferTrace
      = (L.map (fun i => (points.getD i dfltPoint).vertIndex)).foldl feStep st.bufferTrace ∧
    st'.faceVertexIndices
      = st.faceVertexIndices ++ L.map (fun i => (points.getD i dfltPoint).vertIndex) ∧
    st'.groupVertexIndices.length = st.groupVertexIndices.length + L.length ∧
    st'.faceVertexCounts = st.faceVertexCounts ∧
    st.groupVertexBuffer.length ≤ st'.groupVertexBuffer.length := by
  induction L generalizing st with
  | nil =>
    unfold processPoints at h
    injection h with h
    subst h
    exact ⟨hinv, by simp, by simp, by simp, rfl, le_refl _⟩
  | cons pi rest ih =>
    unfold processPoints at h
    split at h
    · exact absurd h (by simp)
    next st2 heq =>
      obtain ⟨hinv2, ht2, hf2, hg2, hc2, hb2⟩ := processPoint_ok_char heq hinv
      obtain ⟨hinv3, ht3, hf3, hg3, hc3, hb3⟩ := ih h hinv2
      refine ⟨hinv3, ?_, ?_, ?_, ?_, ?_⟩
      · rw [ht3, ht2]
        simp [feStep]
      · rw [hf3, hf2]
        simp
      · rw [hg3, hg2]
        simp
        omega
      · rw [hc3, hc2]
      · exact le_trans hb2 hb3

theorem processFace_ok_char {verts : List Vec3} {points : List Point}
    {st st' : CompactState} {face : Face}
    (h : processFace verts points st face = Except.ok st') (hinv : CompactInv verts st) :
    CompactInv verts st' ∧
    st'.bufferTrace = (faceRefs points face).foldl feStep st.bufferTrace ∧
    st'.faceVertexIndices = st.faceVertexIndices ++ faceRefs points face ∧
    st'.groupVertexIndices.length
      = st.groupVertexIndices.length + (face.pointsEnd - face.pointsBegin) ∧
    st'.faceVertexCounts = st.faceVertexCounts ++ [face.size] ∧
    st.groupVertexBuffer.length ≤ st'.groupVertexBuffer.length := by
  unfold processFace at h
  have hinv1 : CompactInv verts
      { st with faceVertexCounts := st.faceVertexCounts ++ [face.size] } :=
    ⟨hinv.mem_iff, hinv.val_lt, hinv.len_eq, hinv.gvi_lt, hinv.nodup, hinv.buffer_trace⟩
  obtain ⟨hinv2, ht, hf, hg, hc, hb⟩ := processPoints_ok_char _ h hinv1
  refine ⟨hinv2, ?_, ?_, ?_, ?_, ?_⟩
  · rw [ht]; rfl
  · rw [hf]; rfl
  · rw [hg]
    simp [List.length_range']
  · rw [hc]
  · exact hb

theorem processFaces_ok_char {verts : List Vec3} {points : List Point} (fl : List Face)
    {st st' : CompactState}
    (h : processFaces verts points st fl = Except.ok st') (hinv : CompactInv verts st) :
    CompactInv verts st' ∧
    st'.bufferTrace = ((fl.map (faceRefs points)).flatten).foldl feStep st.bufferTrace ∧
    st'.faceVertexIndices = st.faceVertexIndices ++ (fl.map (faceRefs points)).flatten ∧
    st'.groupVertexIndices.length
      = st.groupVertexIndices.length + (fl.map (fun f => f.pointsEnd - f.pointsBegin)).sum ∧
    st'.faceVertexCounts = st.faceVertexCounts ++ fl.map Face.size ∧
    st.groupVertexBuffer.length ≤ st'.groupVertexBuffer.length := by
  induction fl generalizing st with
  | nil =>
    unfold processFaces at h
    injection h with h
    subst h
    exact ⟨hinv, by simp, by simp, by simp, by simp, le_refl _⟩
  | cons face rest ih =>
    unfold processFaces at h
    split at h
    · exact absurd h (by simp)
    next st2 heq =>
      obtain ⟨hinv2, ht2, hf2, hg2, hc2, hb2⟩ := processFace_ok_char heq hinv
      obtain ⟨hinv3, ht3, hf3, hg3, hc3, hb3⟩ := ih h hinv2
      refine ⟨hinv3, ?_, ?_, ?_, ?_, ?_⟩
      · rw [ht3, ht2]
        simp [List.foldl_append]
      · rw [hf3, hf2]
        simp
      · rw [hg3, hg2]
        simp
        omega
      · rw [hc3, hc2]
        simp
      · exact le_trans hb2 hb3

/-- Full characterization of a successful per-group compaction run. -/
theorem convertGroup_ok_char {verts : List Vec3} {points : List Point} {g : Group}
    {st : CompactState} (h : convertGroup verts points g = Except.ok st) :
    CompactInv verts st ∧
    st.bufferTrace = firstEncounters (refTrace points g) ∧
    st.faceVertexIndices = refTrace points g ∧
    st.groupVertexIndices.length = (g.faces.map (fun f => f.pointsEnd - f.pointsBegin)).sum ∧
    st.faceVertexCounts = g.faces.map Face.size := by
  unfold convertGroup at h
  obtain ⟨hinv, ht, hf, hg, hc, -⟩ := processFaces_ok_char _ h (compactInv_init verts)
  refine ⟨hinv, ?_, ?_, ?_, ?_⟩
  · rw [ht]; rfl
  · rw [hf]; rfl
  · rw [hg]; simp [CompactState.init]
  · rw [hc]; rfl

theorem processPoint_error {verts : List Vec3} {points : List Point} {st : CompactState}
    {pi : Nat} {e : PyErr} (h : processPoint verts points st pi = Except.error e) :
    e = PyErr.indexError := by
  unfold processPoint at h
  split at h
  next e2 heq =>
    injection h with h
    subst h
    exact pyListGet_error heq
  next objPoint heq =>
    dsimp only at h
    split at h
    · exact absurd h (by simp)
    next hm =>
      split at h
      next e2 hw =>
        injection h with h
        subst h
        exact pyListGet_error hw
      next w hw => exact absurd h (by simp)

theorem processPoints_error {verts : List Vec3} {points : List Point} (L : List Nat)
    {st : CompactState} {e : PyErr}
    (h : processPoints verts points st L = Except.error e) : e = PyErr.indexError := by
  induction L generalizing st with
  | nil => exact absurd h (by simp [processPoints])
  | cons pi rest ih =>
    unfold processPoints at h
    split at h
    next e2 heq =>
      injection h with h
      subst h
      exact processPoint_error heq
    next st2 heq => exact ih h

theorem processFace_error {verts : List Vec3} {points : List Point} {st : CompactState}
    {face : Face} {e : PyErr}
    (h : processFace verts points st face = Except.error e) : e = PyErr.indexError := by
  unfold processFace at h
  exact processPoints_error _ h

theorem processFaces_error {verts : List Vec3} {points : List Point} (fl : List Face)
    {st : CompactState} {e : PyErr}
    (h : processFaces verts points st fl = Except.error e) : e = PyErr.indexError := by
  induction fl generalizing st with
  | nil => exact absurd h (by simp [processFaces])
  | cons face rest ih =>
    unfold processFaces at h
    split at h
    next e2 heq =>
      injection h with h
      subst h
      exact processFace_error heq
    next st2 heq => exact ih h

theorem convertGroup_error {verts : List Vec3} {points : List Point} {g : Group} {e : PyErr}
    (h : convertGroup verts points g = Except.error e) : e = PyErr.indexError := by
  unfold convertGroup at h
  exact processFaces_error _ h

theorem sum_sizes (fl : List Face) (hwf : ∀ f ∈ fl, f.pointsBegin ≤ f.pointsEnd) :
    (fl.map Face.size).sum
      = (((fl.map (fun f => f.pointsEnd - f.pointsBegin)).sum : Nat) : Int) := by
  induction fl with
  | nil => simp
  | cons f rest ih =>
    have h1 := hwf f (List.mem_cons_self f rest)
    have h2 := ih (fun x hx => hwf x (List.mem_cons_of_mem f hx))
    simp only [List.map_cons, List.sum_cons, Face.size] at h2 ⊢
    rw [h2]
    omega

/-! ## Claim theorems -/

/-- C3: for every group compacted by the mesh assembler, the compacted
buffer's global-index trace is exactly the first-encounter
deduplication of the walk over the group's face references: each
distinct referenced global-vertex-table index appears exactly once
(`Nodup` plus the membership equivalence), in first-encounter order
(`firstEncounters`), and the compacted buffer holds exactly the
corresponding vertices of the global table. -/
theorem c3_compaction_first_encounter {verts : List Vec3} {points : List Point} {g : Group}
    {st : CompactState} (h : convertGroup verts points g = Except.ok st) :
    st.bufferTrace = firstEncounters (refTrace points g) ∧
    st.bufferTrace.Nodup ∧
    (∀ v : Int, v ∈ st.bufferTrace ↔ v ∈ refTrace points g) ∧
    st.bufferTrace.length = st.groupVertexBuffer.length ∧
    (∀ p ∈ st.bufferTrace.zip st.groupVertexBuffer,
      pyListGet verts p.fst = Except.ok p.snd) := by
  obtain ⟨hinv, ht, -, -, -⟩ := convertGroup_ok_char h
  refine ⟨ht, hinv.nodup, ?_, hinv.len_eq.symm, hinv.buffer_trace⟩
  intro v
  rw [ht]
  unfold firstEncounters
  rw [mem_foldl_feStep]
  simp

/-- Witness for C3 at Scenario B (two identical triangles): the
compacted trace is `[0, 1, 2]`, duplicate-free. -/
theorem c3_compaction_first_encounter_witness :
    ([0, 1, 2] : List Int)
      = firstEncounters (refTrace
          [Point.mk 0 (-1) (-1), Point.mk 1 (-1) (-1), Point.mk 2 (-1) (-1),
           Point.mk 0 (-1) (-1), Point.mk 1 (-1) (-1), Point.mk 2 (-1) (-1)]
          (Group.mk "default" [Face.mk 0 3, Face.mk 3 6])) ∧
    ([0, 1, 2] : List Int).Nodup := by
  have hc := @c3_compaction_first_encounter
    [((0 : ℚ), (0 : ℚ), (0 : ℚ)), ((1 : ℚ), (0 : ℚ), (0 : ℚ)),
     ((1 : ℚ), (1 : ℚ), (0 : ℚ))]
    [Point.mk 0 (-1) (-1), Point.mk 1 (-1) (-1), Point.mk 2 (-1) (-1),
     Point.mk 0 (-1) (-1), Point.mk 1 (-1) (-1), Point.mk 2 (-1) (-1)]
    (Group.mk "default" [Face.mk 0 3, Face.mk 3 6])
    (CompactState.mk
      [((0 : ℚ), (0 : ℚ), (0 : ℚ)), ((1 : ℚ), (0 : ℚ), (0 : ℚ)), ((1 : ℚ), (1 : ℚ), (0 : ℚ))]
      [0, 1, 2] [(0, 0), (1, 1), (2, 2)] [0, 1, 2, 0, 1, 2] [0, 1, 2, 0, 1, 2] [3, 3])
    rfl
  exact ⟨hc.1, hc.2.1⟩

/-- C4: for every assembled mesh of a non-empty group, the sum of the
face-vertex-count array equals the length of the exported
face-vertex-index array (`groupVertexIndices`), and every exported index
is strictly below the compacted buffer's length.  The hypothesis
`pointsBegin ≤ pointsEnd` holds for every face the parser constructs. -/
theorem c4_mesh_invariants {verts : List Vec3} {points : List Point} {g : Group}
    {st : CompactState} (h : convertGroup verts points g = Except.ok st)
    (hwf : ∀ f ∈ g.faces, f.pointsBegin ≤ f.pointsEnd) :
    st.faceVertexCounts.sum = (st.groupVertexIndices.length : Int) ∧
    ∀ i ∈ st.groupVertexIndices, i < st.groupVertexBuffer.length := by
  obtain ⟨hinv, -, -, hg, hc⟩ := convertGroup_ok_char h
  refine ⟨?_, hinv.gvi_lt⟩
  rw [hc, hg, sum_sizes g.faces hwf]

/-- Witness for C4 at Scenario A (one triangle): `sum [3] = 3` and all
exported indices are below the buffer length `3`. -/
theorem c4_mesh_invariants_witness :
    ([3] : List Int).sum = (([0, 1, 2] : List Nat).length : Int) ∧
    ∀ i ∈ ([0, 1, 2] : List Nat), i < ([((0 : ℚ), (0 : ℚ), (0 : ℚ)),
      ((1 : ℚ), (0 : ℚ), (0 : ℚ)), ((1 : ℚ), (1 : ℚ), (0 : ℚ))] : List Vec3).length := by
  exact @c4_mesh_invariants
    [((0 : ℚ), (0 : ℚ), (0 : ℚ)), ((1 : ℚ), (0 : ℚ), (0 : ℚ)),
     ((1 : ℚ), (1 : ℚ), (0 : ℚ))]
    [Point.mk 0 (-1) (-1), Point.mk 1 (-1) (-1), Point.mk 2 (-1) (-1)]
    (Group.mk "default" [Face.mk 0 3])
    (CompactState.mk
      [((0 : ℚ), (0 : ℚ), (0 : ℚ)), ((1 : ℚ), (0 : ℚ), (0 : ℚ)), ((1 : ℚ), (1 : ℚ), (0 : ℚ))]
      [0, 1, 2] [(0, 0), (1, 1), (2, 2)] [0, 1, 2] [0, 1, 2] [3])
    rfl
    (by decide)

/-- C2, counterexample: a face reference `-1` parses to global index
`-2`, which is out of range against the 2-entry vertex table; the
assembler neither raises any error nor drops the reference — it silently
resolves it to the vertex `(0, 0, 0)` by Python negative indexing. -/
theorem c2_counterexample :
    Except.map (fun st => (st.groupVertexBuffer, st.bufferTrace))
      (Except.bind (getOBJStreamForFile ["v 0 0 0", "v 5 5 5", "f -1 -1 -1"]) (fun s =>
        convertGroup s.verts s.points (s.groups.getD 0 (Group.mk "" []))))
    = Except.ok ([((0 : ℚ), (0 : ℚ), (0 : ℚ))], [(-2 : Int)]) := by
  rfl

/-- C2, amended: assembly of a group either fails with an `IndexError`
(the only error it can raise — there is no `ParseError` in the code), or
succeeds, in which case every global index it compacted lies in Python's
wrapped index range `[-len, len)` of the vertex table and the stored
vertex is the result of Python list indexing (so negative in-range
indices are silently resolved). -/
theorem c2_amended (verts : List Vec3) (points : List Point) (g : Group) :
    (∀ e, convertGroup verts points g = Except.error e → e = PyErr.indexError) ∧
    (∀ st, convertGroup verts points g = Except.ok st →
      ∀ p ∈ st.bufferTrace.zip st.groupVertexBuffer,
        -(verts.length : Int) ≤ p.fst ∧ p.fst < verts.length ∧
        pyListGet verts p.fst = Except.ok p.snd) := by
  constructor
  · intro e he
    exact convertGroup_error he
  · intro st hst p hp
    obtain ⟨hinv, -, -, -, -⟩ := convertGroup_ok_char hst
    have hpl := hinv.buffer_trace p hp
    obtain ⟨h1, h2⟩ := pyListGet_ok_bounds hpl
    exact ⟨h1, h2, hpl⟩

/-- Witness for C2 (amended) at a single-vertex table with the negative
in-range reference `-1`. -/
theorem c2_amended_witness :
    -(([((0 : ℚ), (0 : ℚ), (0 : ℚ))] : List Vec3).length : Int) ≤ (-1 : Int) ∧
    ((-1 : Int) < (([((0 : ℚ), (0 : ℚ), (0 : ℚ))] : List Vec3).length : Int)) ∧
    pyListGet ([((0 : ℚ), (0 : ℚ), (0 : ℚ))] : List Vec3) (-1)
      = Except.ok ((0 : ℚ), (0 : ℚ), (0 : ℚ)) := by
  have h := (c2_amended [((0 : ℚ), (0 : ℚ), (0 : ℚ))] [Point.mk (-1) (-1) (-1)]
      (Group.mk "g0" [Face.mk 0 1])).2
    (CompactState.mk [((0 : ℚ), (0 : ℚ), (0 : ℚ))] [-1] [(-1, 0)] [0] [-1] [1])
    rfl
    ((-1 : Int), ((0 : ℚ), (0 : ℚ), (0 : ℚ)))
    (by exact List.mem_singleton.mpr rfl)
  exact h

theorem AddFace_concat (s : OBJStream) (g : Group) (rest : List Group) (face : Face)
    (h : s.groups = rest ++ [g]) :
    (s.AddFace face).groups = rest ++ [{ g with faces := g.faces ++ [face] }] := by
  have hne2 : (rest ++ [g]).isEmpty = false := by simp
  simp only [OBJStream.AddFace, h, hne2, Bool.false_eq_true, if_false, List.getLast?_concat,
    List.dropLast_concat]

/-- C10: a `usemtl` directive arriving before any group exists makes the
parser read `_groups[-1]` of an empty group list, raising an uncaught
`IndexError` instead of binding the material to an implicit default
group. -/
theorem c10_usemtl_before_group :
    getOBJStreamForFile ["usemtl foo"] = Except.error PyErr.indexError ∧
    OBJStream.empty.GetCurrentGroup = Except.error PyErr.indexError :=
  ⟨rfl, rfl⟩

/-- C1, counterexample: in the stream `g A / g B / g A / f 1 2 3` the
final `g A` does *not* re-activate the existing group `A`; the face is
appended to `B` (the most recently created group) while `A` stays
empty, contradicting the claimed re-activation semantics. -/
theorem c1_counterexample :
    Except.map (fun s => ((s.FindGroup "A").map Group.faces, (s.FindGroup "B").map Group.faces))
        (getOBJStreamForFile ["g A", "g B", "g A", "f 1 2 3"])
      = Except.ok (some [], some [Face.mk 0 3]) :=
  rfl

/-- C1, amended: `g name` creates and activates the named group only
when no group of that name exists yet; in that case subsequent faces go
to it.  When the name already exists the directive is a no-op (the
previously active group keeps receiving faces, as the counterexample
shows).  A bare `g` line is treated as `g default` with the same
create-only semantics. -/
theorem c1_amended (s : OBJStream) (G : String) :
    (s.FindGroup G = none →
      (s.AddGroup G).GetCurrentGroup = Except.ok G ∧
      ∀ face, ((s.AddGroup G).AddFace face).FindGroup G = some (Group.mk G [face])) ∧
    (∀ g0, s.FindGroup G = some g0 → s.AddGroup G = s) ∧
    processLine s "g" = Except.ok (s.AddGroup "default") := by
  refine ⟨?_, ?_, ?_⟩
  · intro hnone
    have hadd : (s.AddGroup G).groups = s.groups ++ [Group.mk G []] := by
      unfold OBJStream.AddGroup
      rw [hnone]
    constructor
    · unfold OBJStream.GetCurrentGroup
      rw [hadd, List.getLast?_concat]
    · intro face
      have hgr := AddFace_concat (s.AddGroup G) (Group.mk G []) s.groups face hadd
      unfold OBJStream.FindGroup
      rw [hgr, find?_append_of_none hnone]
      exact List.find?_cons_of_pos _ (by simp)
  · intro g0 h0
    unfold OBJStream.AddGroup
    rw [h0]
  · rfl

/-- Witness for C1 (amended) on the empty stream and group name `A`. -/
theorem c1_amended_witness :
    (OBJStream.empty.AddGroup "A").GetCurrentGroup = Except.ok "A" ∧
    ((OBJStream.empty.AddGroup "A").AddFace (Face.mk 0 0)).FindGroup "A"
      = some (Group.mk "A" [Face.mk 0 0]) := by
  have h := (c1_amended OBJStream.empty "A").1 rfl
  exact ⟨h.1, h.2 (Face.mk 0 0)⟩

/-- C7, counterexample: the non-blank line `gravel` is not one of the
recognized directive classes, yet the parser does not ignore it — the
first-character dispatch treats it as a group directive and creates a
group named `gravel`, so the stream differs from the one parsed without
that line. -/
theorem c7_counterexample :
    Except.map (fun s => s.groups.map Group.name)
        (getOBJStreamForFile ["v 0 0 0", "gravel", "f 1 1 1"]) = Except.ok ["gravel"] ∧
    Except.map (fun s => s.groups.map Group.name)
        (getOBJStreamForFile ["v 0 0 0", "f 1 1 1"]) = Except.ok ["default"] :=
  ⟨rfl, rfl⟩

/-- C7, amended: a non-blank line is ignored (stream unchanged, no
error) when its first character is none of `v`, `f`, `g` and it does not
start with `usemtl `; dispatch is by first character only, so lines such
as `gravel` are instead handled by the `g` branch (see the
counterexample). -/
theorem c7_amended (s : OBJStream) (rawLine : String)
    (h1 : pyStrip rawLine ≠ "")
    (h2 : (pyStrip rawLine).data.headD ' ' ∉ (['v', 'f', 'g'] : List Char))
    (h3 : ¬ pyStartsWith (pyStrip rawLine) "usemtl " = true) :
    processLine s rawLine = Except.ok s := by
  unfold processLine
  rw [if_neg h1]
  cases hd : (pyStrip rawLine).data with
  | nil => rfl
  | cons c rest =>
    rw [hd] at h2
    simp only [List.headD_cons, List.mem_cons, List.mem_singleton] at h2
    push_neg at h2
    obtain ⟨hv, hf, hg, -⟩ := h2
    have h3f : pyStartsWith (pyStrip rawLine) "usemtl " = false := by
      simpa using h3
    simp only [hd, if_neg hv, if_neg hf, if_neg hg, h3f, Bool.false_eq_true, if_false]

/-- Witness for C7 (amended): a comment line is ignored. -/
theorem c7_amended_witness :
    processLine OBJStream.empty "# comment" = Except.ok OBJStream.empty :=
  c7_amended OBJStream.empty "# comment" (by decide) (by decide) (by decide)

/-- C8, counterexample: a material bag carrying an explicit `opacity`
field but no 4-channel base color yields no recorded display opacity —
`getDisplayOpacityForMaterial` never consults the `opacity` field,
contradicting the "or an explicit opacity field exists" clause. -/
theorem c8_counterexample :
    (MaterialData.mk none (some 1)).opacity.isSome = true ∧
    displayOpacityRecorded [("m", MaterialData.mk none (some 1))] "m" = none :=
  ⟨rfl, rfl⟩

/-- C8, amended: display opacity is recorded exactly when the resolved
material entry's base-color array has at least 4 entries and its 4th
entry is nonzero (the `if alpha:` truthiness check drops a zero), and
the recorded value is that 4th entry — in particular a bag with base
color `[0.2, 0.3, 0.4, 0.5]` records `0.5`; the bag's explicit
`opacity` field is never consulted (changing it in every bag leaves the
result unchanged). -/
theorem c8_amended (data : List (String × MaterialData)) (name : String) (a : ℚ) :
    (displayOpacityRecorded data name = some a ↔
      (a ≠ 0 ∧ ∃ md bc, (data.find? (fun p => p.fst = name)).map Prod.snd = some md ∧
        md.baseColor = some bc ∧ 4 ≤ bc.length ∧ bc.getD 3 0 = a)) ∧
    (∀ q : Option ℚ,
      displayOpacityRecorded
          (data.map (fun p => (p.fst, MaterialData.mk p.snd.baseColor q))) name
        = displayOpacityRecorded data name) := by
  constructor
  · unfold displayOpacityRecorded getDisplayOpacityForMaterial
    cases hf : data.find? (fun p => p.fst = name) with
    | none => simp
    | some entry =>
      simp only [Option.map_some']
      cases hbc : entry.snd.baseColor with
      | none => simp [hbc]
      | some bc =>
        simp only [hbc]
        by_cases hlen : bc.length ≥ 4
        · rw [if_pos hlen]
          dsimp only
          by_cases hz : bc.getD 3 0 = 0
          · rw [if_neg (not_not_intro hz)]
            refine iff_of_false (by simp) ?_
            rintro ⟨ha, md, bc2, hmd, hbc2, -, hget⟩
            injection hmd with hmd
            rw [← hmd, hbc] at hbc2
            injection hbc2 with hbc2
            subst hbc2
            exact ha (hget ▸ hz)
          · rw [if_pos hz]
            constructor
            · intro hsome
              injection hsome with hsome
              exact ⟨hsome ▸ hz, entry.snd, bc, rfl, hbc, hlen, hsome⟩
            · rintro ⟨-, md, bc2, hmd, hbc2, -, hget⟩
              injection hmd with hmd
              rw [← hmd, hbc] at hbc2
              injection hbc2 with hbc2
              subst hbc2
              rw [hget]
        · rw [if_neg hlen]
          refine iff_of_false (by simp) ?_
          rintro ⟨-, md, bc2, hmd, hbc2, hlen2, -⟩
          injection hmd with hmd
          rw [← hmd, hbc] at hbc2
          injection hbc2 with hbc2
          subst hbc2
          exact hlen hlen2
  · intro q
    unfold displayOpacityRecorded getDisplayOpacityForMaterial
    rw [List.find?_map]
    have hcomp : ((fun p : String × MaterialData => decide (p.fst = name)) ∘
        (fun p : String × MaterialData => (p.fst, MaterialData.mk p.snd.baseColor q)))
        = (fun p : String × MaterialData => decide (p.fst = name)) := rfl
    rw [hcomp]
    cases hf : data.find? (fun p : String × MaterialData => decide (p.fst = name)) with
    | none => rfl
    | some entry => rfl

/-- Witness for C8 (amended) at Scenario D: base color
`[1/5, 3/10, 2/5, 1/2]` records display opacity `1/2`. -/
theorem c8_amended_witness :
    displayOpacityRecorded
        [("m", MaterialData.mk
          (some [Rat.mk' 1 5, Rat.mk' 3 10, Rat.mk' 2 5, Rat.mk' 1 2]) none)] "m"
      = some (Rat.mk' 1 2) := by
  exact (c8_amended
    [("m", MaterialData.mk
      (some [Rat.mk' 1 5, Rat.mk' 3 10, Rat.mk' 2 5, Rat.mk' 1 2]) none)]
    "m" (Rat.mk' 1 2)).1.mpr
    ⟨by decide,
     MaterialData.mk (some [Rat.mk' 1 5, Rat.mk' 3 10, Rat.mk' 2 5, Rat.mk' 1 2]) none,
     [Rat.mk' 1 5, Rat.mk' 3 10, Rat.mk' 2 5, Rat.mk' 1 2],
     rfl, rfl, by decide, rfl⟩

theorem processSubInstance_char (pd ext sd path : String) (st : InstancingState)
    (e : String × SubInstanceData) :
    ((processSubInstance pd ext sd st e).materializedLog.count path
        = st.materializedLog.count path +
          (if hitsPath pd ext sd path e = true ∧ path ∉ st.fs then 1 else 0)) ∧
    ((processSubInstance pd ext sd st e).refs.count path
        = st.refs.count path + (if hitsPath pd ext sd path e = true then 1 else 0)) ∧
    (path ∈ (processSubInstance pd ext sd st e).fs ↔
        path ∈ st.fs ∨ hitsPath pd ext sd path e = true) := by
  unfold processSubInstance
  by_cases helig : e.snd.type = "archive" ∧ ¬ subInstanceIsTooSmallToInstance e.fst = true
  · rw [if_pos helig]
    dsimp only
    have hsmall : subInstanceIsTooSmallToInstance e.fst = false := by
      rcases helig with ⟨-, h2⟩
      simpa using h2
    have hhit : hitsPath pd ext sd path e
        = decide (getAssetSubInstanceStageFilePath pd ext
            (sd ++ "/" ++ e.snd.jsonFile) = path) := by
      unfold hitsPath
      rw [hsmall]
      simp [helig.1]
    by_cases hqp : getAssetSubInstanceStageFilePath pd ext (sd ++ "/" ++ e.snd.jsonFile) = path
    · rw [hqp] at hhit ⊢
      have hhit2 : hitsPath pd ext sd path e = true := by rw [hhit]; simp
      by_cases hin : path ∈ st.fs
      · rw [if_pos hin]
        refine ⟨?_, ?_, ?_⟩
        · simp [hhit2, hin]
        · simp [hhit2, count_concat]
        · simp [hin]
      · rw [if_neg hin]
        refine ⟨?_, ?_, ?_⟩
        · simp [hhit2, hin, count_concat]
        · simp [hhit2, count_concat]
        · simp [hhit2]
    · have hhit2 : hitsPath pd ext sd path e = false := by
        rw [hhit]
        simpa using hqp
      have hqp2 : ∀ l : List String,
          (l ++ [getAssetSubInstanceStageFilePath pd ext
            (sd ++ "/" ++ e.snd.jsonFile)]).count path = l.count path := by
        intro l
        rw [count_concat, if_neg hqp, Nat.add_zero]
      by_cases hin : getAssetSubInstanceStageFilePath pd ext
          (sd ++ "/" ++ e.snd.jsonFile) ∈ st.fs
      · rw [if_pos hin]
        refine ⟨?_, ?_, ?_⟩
        · simp [hhit2]
        · simp [hhit2, hqp2]
        · simp [hhit2]
      · rw [if_neg hin]
        refine ⟨?_, ?_, ?_⟩
        · simp [hhit2, hqp2]
        · simp [hhit2, hqp2]
        · simp only [hhit2, Bool.false_eq_true, or_false, List.mem_append,
            List.mem_singleton]
          exact ⟨fun h => h.elim id (fun h2 => absurd h2.symm hqp), Or.inl⟩
  · rw [if_neg helig]
    have hhit2 : hitsPath pd ext sd path e = false := by
      unfold hitsPath
      rcases not_and_or.mp helig with h1 | h2
      · simp [h1]
      · have : subInstanceIsTooSmallToInstance e.fst = true := by
          by_contra hc
          exact h2 (by simpa using hc)
        simp [this]
    refine ⟨?_, ?_, ?_⟩
    · simp [hhit2]
    · simp [hhit2]
    · simp [hhit2]

theorem processSubInstances_char (pd ext sd path : String)
    (encounters : List (String × SubInstanceData)) (st : InstancingState) :
    ((processSubInstances pd ext sd st encounters).materializedLog.count path
        = st.materializedLog.count path +
          (if (encounters.any (hitsPath pd ext sd path)) = true ∧ path ∉ st.fs
           then 1 else 0)) ∧
    ((processSubInstances pd ext sd st encounters).refs.count path
        = st.refs.count path + encounters.countP (hitsPath pd ext sd path)) ∧
    (path ∈ (processSubInstances pd ext sd st encounters).fs ↔
        path ∈ st.fs ∨ (encounters.any (hitsPath pd ext sd path)) = true) := by
  induction encounters generalizing st with
  | nil =>
    unfold processSubInstances
    simp
  | cons e rest ih =>
    unfold processSubInstances
    obtain ⟨hm1, hr1, hf1⟩ := processSubInstance_char pd ext sd path st e
    obtain ⟨hm2, hr2, hf2⟩ := ih (processSubInstance pd ext sd st e)
    refine ⟨?_, ?_, ?_⟩
    · rw [hm2, hm1, List.any_cons]
      by_cases hhit : hitsPath pd ext sd path e = true
      · by_cases hin : path ∈ st.fs
        · have hin1 : path ∈ (processSubInstance pd ext sd st e).fs := hf1.mpr (Or.inl hin)
          simp [hhit, hin, hin1]
        · have hin1 : path ∈ (processSubInstance pd ext sd st e).fs := hf1.mpr (Or.inr hhit)
          simp [hhit, hin, hin1]
      · by_cases hin : path ∈ st.fs
        · have hin1 : path ∈ (processSubInstance pd ext sd st e).fs := hf1.mpr (Or.inl hin)
          simp [hhit, hin, hin1]
        · have hnin1 : path ∉ (processSubInstance pd ext sd st e).fs := by
            rw [hf1]
            exact fun h => h.elim hin hhit
          have hhitf : hitsPath pd ext sd path e = false := by simpa using hhit
          simp only [hhitf, Bool.false_or, Bool.false_eq_true, false_and, if_false,
            Nat.add_zero]
          have hiff : (rest.any (hitsPath pd ext sd path) = true ∧
              path ∉ (processSubInstance pd ext sd st e).fs) ↔
              (rest.any (hitsPath pd ext sd path) = true ∧ path ∉ st.fs) :=
            and_congr_right (fun _ => iff_of_true hnin1 hin)
          rw [if_congr hiff rfl rfl]
    · rw [hr2, hr1, List.countP_cons]
      by_cases hhit : hitsPath pd ext sd path e = true
      · simp [hhit]
        omega
      · simp [hhit]
    · rw [hf2, hf1, List.any_cons]
      simp only [Bool.or_eq_true]
      tauto

/-- C5: within one run, if the sub-instance batch artifact at `path`
does not exist yet and at least one eligible encounter (archive-typed,
not excluded as too small) targets it, then the run parses its JSON
definition and writes the artifact exactly once, and every eligible
encounter targeting it (the first included) attaches a reference to
that artifact. -/
theorem c5_single_materialization (pd ext sd path : String) (st0 : InstancingState)
    (encounters : List (String × SubInstanceData))
    (h0 : path ∉ st0.fs)
    (hN : ∃ e ∈ encounters, hitsPath pd ext sd path e = true) :
    (processSubInstances pd ext sd st0 encounters).materializedLog.count path
      = st0.materializedLog.count path + 1 ∧
    (processSubInstances pd ext sd st0 encounters).refs.count path
      = st0.refs.count path + encounters.countP (hitsPath pd ext sd path) ∧
    path ∈ (processSubInstances pd ext sd st0 encounters).fs := by
  obtain ⟨hm, hr, hf⟩ := processSubInstances_char pd ext sd path encounters st0
  have hany : (encounters.any (hitsPath pd ext sd path)) = true := by
    rw [List.any_eq_true]
    obtain ⟨e, he, hhit⟩ := hN
    exact ⟨e, he, hhit⟩
  refine ⟨?_, hr, ?_⟩
  · rw [hm, if_pos ⟨hany, h0⟩]
  · rw [hf]
    exact Or.inr hany

/-- Witness for C5: two eligible encounters of the same JSON file on an
empty destination — one materialization, two references. -/
theorem c5_single_materialization_witness :
    (processSubInstances "prim" ".usda" "src" (InstancingState.mk [] [] [])
        [("xgA", SubInstanceData.mk "archive" "json/e/xgA.json"),
         ("xgB", SubInstanceData.mk "archive" "json/e/xgA.json")]).materializedLog.count
        "prim/_instances_xgA.usda"
      = ([] : List String).count "prim/_instances_xgA.usda" + 1 ∧
    (processSubInstances "prim" ".usda" "src" (InstancingState.mk [] [] [])
        [("xgA", SubInstanceData.mk "archive" "json/e/xgA.json"),
         ("xgB", SubInstanceData.mk "archive" "json/e/xgA.json")]).refs.count
        "prim/_instances_xgA.usda"
      = ([] : List String).count "prim/_instances_xgA.usda" +
        ([("xgA", SubInstanceData.mk "archive" "json/e/xgA.json"),
          ("xgB", SubInstanceData.mk "archive" "json/e/xgA.json")].countP
          (hitsPath "prim" ".usda" "src" "prim/_instances_xgA.usda")) ∧
    "prim/_instances_xgA.usda" ∈ (processSubInstances "prim" ".usda" "src"
        (InstancingState.mk [] [] [])
        [("xgA", SubInstanceData.mk "archive" "json/e/xgA.json"),
         ("xgB", SubInstanceData.mk "archive" "json/e/xgA.json")]).fs := by
  exact c5_single_materialization "prim" ".usda" "src" "prim/_instances_xgA.usda"
    (InstancingState.mk [] [] [])
    [("xgA", SubInstanceData.mk "archive" "json/e/xgA.json"),
     ("xgB", SubInstanceData.mk "archive" "json/e/xgA.json")]
    (by simp)
    ⟨("xgA", SubInstanceData.mk "archive" "json/e/xgA.json"), by simp, by decide⟩

/-- C6, counterexample: with the element artifact
`prim/_element_isBeach.usda` already present in the destination, a new
run still re-parses the element's JSON file and rewrites its stage —
the element unit is not detected as done and skipped (the element loop
never consults the destination state). -/
theorem c6_counterexample :
    getElementStageFilePath "prim" ".usda" "isBeach" ∈
        (["prim/_element_isBeach.usda"] : List String) ∧
    (createElements "prim" ".usda" ["prim/_element_isBeach.usda"]
        [ElementJob.mk "json/isBeach/isBeach.json" "isBeach"]).fst
      = ["json/isBeach/isBeach.json"] ∧
    (createElements "prim" ".usda" ["prim/_element_isBeach.usda"]
        [ElementJob.mk "json/isBeach/isBeach.json" "isBeach"]).snd
      = ["prim/_element_isBeach.usda"] := by
  exact ⟨List.mem_singleton.mpr rfl, rfl, rfl⟩

/-- C6, amended: re-run skipping holds for asset units (the existence
pre-filter of `_createAssets` translates exactly the assets whose stage
path does not already exist) and for sub-instance batch artifacts (the
per-encounter existence check of `_createInstance`), but not for
element units: every run re-parses each element JSON file and recreates
its stage at its deterministic path regardless of the destination
state.  Outputs are deterministic functions of the inputs. -/
theorem c6_amended (pd ext : String) (fs : List String) (assetOBJFiles : List String)
    (jobs : List ElementJob) :
    (∀ f, f ∈ assetsToTranslate pd ext fs assetOBJFiles ↔
        (f ∈ assetOBJFiles ∧ getAssetsStagePath pd ext f ∉ fs)) ∧
    (createElements pd ext fs jobs).fst = jobs.map ElementJob.jsonFile ∧
    (createElements pd ext fs jobs).snd
      = jobs.map (fun j => getElementStageFilePath pd ext j.elementName) := by
  refine ⟨?_, rfl, rfl⟩
  intro f
  unfold assetsToTranslate
  rw [List.mem_filter]
  simp

end MoanaToUSD
